import Mathlib

/-!
Verification of the media-group aggregation and multi-target delivery
pipeline of `telegram_forward_bot.py` / `utils.py`, as a shallow embedding.

Conventions of the embedding:
* A Python `Message` object becomes the `Msg` structure; truthiness of
  optional strings (`if message.media_group_id:`) is `truthyOptStr`,
  truthiness of the `photo` tuple is list non-emptiness.
* The bot's mutable configuration (`self.config`) becomes the read-only
  `BotConfig` snapshot taken at batch start.
* Provider calls (`bot.send_media_group`, `bot.copy_message`) are
  parameters of type `Int → ... → Except String _`: `.ok` is a normal
  return, `.error e` is a raised exception with text `e` caught by the
  per-destination `try/except` blocks.
* Rows inserted into `forward_logs` become `DeliveryRecord` values; the
  stats counters become explicit `Nat` deltas.
-/

/-- Python truthiness of an optional string: `None` and `""` are falsy. -/
def truthyOptStr : Option String → Bool
  | none => false
  | some s => !s.isEmpty

/-- `leadsWith n h`: the character list `h` starts with `n`. -/
def leadsWith : List Char → List Char → Bool
  | [], _ => true
  | _ :: _, [] => false
  | a :: as, b :: bs => a == b && leadsWith as bs

/-- `hasSub n h`: `n` occurs as a contiguous sublist of `h`
(Python's `n in h` on strings). -/
def hasSub (n : List Char) : List Char → Bool
  | [] => leadsWith n []
  | c :: cs => leadsWith n (c :: cs) || hasSub n cs

/-- Python `needle in hay` for strings. -/
def strContains (hay needle : String) : Bool :=
  hasSub needle.toList hay.toList

/-- Association-list lookup, modelling Python `d[k]` / `k in d`. -/
def alLookup {α : Type} (l : List (String × α)) (k : String) : Option α :=
  (l.find? (fun p => p.1 == k)).map (·.2)

/-- Association-list insert-or-replace, modelling Python `d[k] = v`
(update in place if the key is present, else append — dict insertion
order). -/
def alInsert {α : Type} : List (String × α) → String → α → List (String × α)
  | [], k, v => [(k, v)]
  | p :: ps, k, v =>
    if p.1 == k then (k, v) :: ps else p :: alInsert ps k v

/-- Association-list delete, modelling Python `del d[k]`. -/
def alErase {α : Type} (l : List (String × α)) (k : String) :
    List (String × α) :=
  l.filter (fun p => !(p.1 == k))

/-- An inbound Telegram message, with the fields the pipeline reads.
`photo` is the list of `PhotoSize` file ids (the Python tuple); the other
content kinds are `Option` payloads (`none` = the attribute is `None`). -/
structure Msg where
  message_id : Nat
  chat_id : Int
  chat_title : Option String
  media_group_id : Option String
  text : Option String
  caption : Option String
  photo : List Nat
  video : Option Nat
  document : Option Nat
  audio : Option Nat
  voice : Option Nat
  sticker : Option Nat
  animation : Option Nat
  location : Option Nat
  poll : Option Nat
  from_user : Option String
  date : Nat
deriving DecidableEq

/-- Snapshot of `self.config` taken at batch start
(`forward_settings`, `notification_settings` and the channel lists). -/
structure BotConfig where
  source_channels : List Int
  target_channels : List Int
  admins : List Int
  preserve_sender : Bool
  add_source_info : Bool
  filter_content_types : List String
  keyword_filter : List String
  delay_seconds : Nat
  notify_admin_on_error : Bool
deriving DecidableEq

/-- One row of the `forward_logs` table, as written by `log_forward`. -/
structure DeliveryRecord where
  source_chat_id : Int
  target_chat_id : Int
  original_message_id : Nat
  forwarded_message_id : Option Nat
  content_type : String
  media_group_id : Option String
  is_media_group : Bool
  success : Bool
  error_message : Option String
deriving DecidableEq

/-- `TelegramForwardBot.get_message_type`: first-matching content kind.
Python truthiness: empty `text` string and empty `photo` tuple are falsy. -/
def get_message_type (m : Msg) : String :=
  if truthyOptStr m.text then "text"
  else if !m.photo.isEmpty then "photo"
  else if m.video.isSome then "video"
  else if m.document.isSome then "document"
  else if m.audio.isSome then "audio"
  else if m.voice.isSome then "voice"
  else if m.sticker.isSome then "sticker"
  else if m.animation.isSome then "animation"
  else if m.location.isSome then "location"
  else if m.poll.isSome then "poll"
  else "other"

/-- `TelegramForwardBot.should_filter_message`: content-type block-list,
then case-insensitive keyword substring filter on `message.text`
(guarded by Python truthiness of `message.text` and of the keyword list). -/
def should_filter_message (cfg : BotConfig) (m : Msg) (content_type : String) :
    Bool :=
  if cfg.filter_content_types.contains content_type then true
  else if truthyOptStr m.text && !cfg.keyword_filter.isEmpty then
    cfg.keyword_filter.any
      (fun kw => strContains ((m.text.getD "").toLower) kw.toLower)
  else false

/-- `TelegramForwardBot.build_caption`. The source computes `chat_title`,
`sender_name` and `time_str` but appends only empty f-string literals
(`source_info = f""`, `source_info += f""`, `source_info += f""`), so the
extra data never reaches the returned string. The unused computations are
kept here as unused bindings to mirror the source. -/
def build_caption (cfg : BotConfig) (m : Msg) : String :=
  let original_caption := m.caption.getD ""
  if !cfg.add_source_info then original_caption
  else
    let _chat_title := m.chat_title.getD (toString m.chat_id)
    let source_info := ""
    let source_info :=
      if m.from_user.isSome && cfg.preserve_sender then
        let _sender_name := m.from_user.getD ""
        source_info ++ ""
      else source_info
    let _time_str := m.date
    let source_info := source_info ++ ""
    original_caption ++ source_info

/-- An `InputMedia*` object built by `create_input_media`. -/
inductive InputMedia where
  | photo (file_id : Nat) (caption : Option String)
  | video (file_id : Nat) (caption : Option String)
  | document (file_id : Nat) (caption : Option String)
  | audio (file_id : Nat) (caption : Option String)
deriving DecidableEq

/-- `TelegramForwardBot.create_input_media`: photo (highest quality =
last element), video, document, audio; any other kind yields `None`
(after a logged warning). -/
def create_input_media (m : Msg) (caption : Option String) :
    Option InputMedia :=
  match m.photo.getLast? with
  | some p => some (.photo p caption)
  | none =>
    match m.video with
    | some v => some (.video v caption)
    | none =>
      match m.document with
      | some d => some (.document d caption)
      | none =>
        match m.audio with
        | some a => some (.audio a caption)
        | none => none

/-- A message is representable in an outbound album iff
`create_input_media` succeeds on it. -/
def representable (m : Msg) : Bool :=
  !m.photo.isEmpty || m.video.isSome || m.document.isSome || m.audio.isSome

/-!
## Group Aggregator (`MediaGroupHandler`), sequential model

`media_groups` and `group_timers` are the two dicts of the handler.
This model treats each handler step (an `add_message` call, or a timer
expiry together with its callback) as atomic — the granularity at which
the claims about batch content and post-state are phrased.  The finer
interleaving of `asyncio` awaits inside an emission is modelled
separately below (`GroupRuntime`).
-/

/-- State of a `MediaGroupHandler`: the `media_groups` buffer dict and the
`group_timers` dict (timer tasks abstracted to their creation ids). -/
structure AggState where
  media_groups : List (String × List Msg)
  group_timers : List (String × Nat)
  nextTimer : Nat
deriving DecidableEq

def AggState.empty : AggState := ⟨[], [], 0⟩

/-- `MediaGroupHandler.add_message`.  A message without a (truthy) media
group id is forwarded directly (returned as `some [m]`, the immediate
`forward_callback([message])`).  Otherwise it is appended to the group's
buffer, the group's pending timer (if any) is cancelled, and a fresh
timer is registered. -/
def add_message (st : AggState) (m : Msg) : AggState × Option (List Msg) :=
  if !truthyOptStr m.media_group_id then (st, some [m])
  else
    let g := m.media_group_id.getD ""
    let buf := (alLookup st.media_groups g).getD [] ++ [m]
    ({ media_groups := alInsert st.media_groups g buf,
       group_timers := alInsert st.group_timers g st.nextTimer,
       nextTimer := st.nextTimer + 1 }, none)

/-- Sort order used by `_process_group_after_timeout`
(`messages.sort(key=lambda m: m.message_id)`). -/
def msgIdRel (a b : Msg) : Prop := a.message_id ≤ b.message_id

instance : DecidableRel msgIdRel := fun a b => Nat.decLe a.message_id b.message_id

instance : IsTotal Msg msgIdRel := ⟨fun a b => Nat.le_total a.message_id b.message_id⟩

instance : IsTrans Msg msgIdRel := ⟨fun _ _ _ => Nat.le_trans⟩

/-- `messages.sort(key=lambda m: m.message_id)`: a stable sort ascending
by message id (Python's sort is stable; a stable insertion sort produces
the identical output). -/
def sortByMsgId (l : List Msg) : List Msg := l.insertionSort msgIdRel

/-- `MediaGroupHandler._process_group_after_timeout`, the part after the
sleep, run atomically: if the group is still buffered, sort its messages
ascending by message id, emit them (`forward_callback`), then delete the
group's buffer and its timer handle. -/
def process_group_after_timeout (st : AggState) (g : String) :
    Option (List Msg) × AggState :=
  match alLookup st.media_groups g with
  | none => (none, st)
  | some msgs =>
    (some (sortByMsgId msgs),
     { st with
       media_groups := alErase st.media_groups g,
       group_timers := alErase st.group_timers g })

/-!
## Inbound pipeline (`TelegramForwardBot.handle_message`)

`BotState` instruments the run with the number of
`should_filter_message` evaluations and the list of batches handed to
`forward_messages_group` (the aggregator's forward callback), which is
where DeliveryRecords and provider sends originate.
-/

structure BotState where
  agg : AggState
  messages_received : Nat
  filterEvals : Nat
  dispatches : List (List Msg)
deriving DecidableEq

def BotState.init : BotState := ⟨AggState.empty, 0, 0, []⟩

/-- `TelegramForwardBot.handle_message`: ignore non-source chats; count
the message; classify it; evaluate the filter once on this message; if
not filtered, hand it to the media-group handler (whose immediate
callback, if any, is recorded as a dispatch). -/
def handle_message (cfg : BotConfig) (st : BotState) (m : Msg) : BotState :=
  if !cfg.source_channels.contains m.chat_id then st
  else
    let st := { st with messages_received := st.messages_received + 1 }
    let content_type := get_message_type m
    let st := { st with filterEvals := st.filterEvals + 1 }
    if should_filter_message cfg m content_type then st
    else
      match add_message st.agg m with
      | (agg, some batch) =>
        { st with agg := agg, dispatches := st.dispatches ++ [batch] }
      | (agg, none) => { st with agg := agg }

/-- Run a sequence of inbound messages through `handle_message`. -/
def run_handle (cfg : BotConfig) (msgs : List Msg) : BotState :=
  msgs.foldl (handle_message cfg) BotState.init

/-!
## Dispatcher (`forward_messages_group` and the two send paths)
-/

/-- A provider call actually issued (`bot.send_media_group` /
`bot.copy_message`). -/
inductive SendEvent where
  | album (target : Int) (media : List InputMedia)
  | copy (target : Int) (from_chat : Int) (message_id : Nat)
      (caption : Option String)
deriving DecidableEq

/-- Observable outcome of one dispatch: provider calls issued, delivery
log rows written, admin notifications sent, stats-counter deltas, and
whether the pre-send delay was applied / the album path taken. -/
structure DispatchOut where
  sends : List SendEvent
  records : List DeliveryRecord
  notifications : List (Int × Int × String)
  messages_forwarded : Nat
  media_groups_forwarded : Nat
  failed_forwards : Nat
  delayApplied : Bool
  albumPath : Bool
deriving DecidableEq

def DispatchOut.empty : DispatchOut := ⟨[], [], [], 0, 0, 0, false, false⟩

/-- `TelegramForwardBot.notify_admins_error`: best-effort fan-out of one
failure notice to every configured admin. -/
def notify_admins_error (cfg : BotConfig) (target : Int) (err : String) :
    List (Int × Int × String) :=
  cfg.admins.map (fun a => (a, target, err))

/-- One iteration of the per-destination loop of
`TelegramForwardBot.forward_single_message`.  `copyRes t` is the outcome
of `bot.copy_message(chat_id=t, ...)`: `.ok fid` returns the forwarded
message id, `.error e` is a raised provider exception, caught by the
loop's `try/except`. -/
def single_target_step (cfg : BotConfig) (copyRes : Int → Except String Nat)
    (m : Msg) (acc : DispatchOut) (t : Int) : DispatchOut :=
  let caption := if cfg.add_source_info then some (build_caption cfg m) else none
  let ev := SendEvent.copy t m.chat_id m.message_id caption
  match copyRes t with
  | .ok fid =>
    { acc with
      sends := acc.sends ++ [ev],
      records := acc.records ++
        [{ source_chat_id := m.chat_id, target_chat_id := t,
           original_message_id := m.message_id,
           forwarded_message_id := some fid,
           content_type := get_message_type m,
           media_group_id := m.media_group_id,
           is_media_group := false, success := true, error_message := none }],
      messages_forwarded := acc.messages_forwarded + 1 }
  | .error e =>
    { acc with
      sends := acc.sends ++ [ev],
      records := acc.records ++
        [{ source_chat_id := m.chat_id, target_chat_id := t,
           original_message_id := m.message_id,
           forwarded_message_id := none,
           content_type := get_message_type m,
           media_group_id := m.media_group_id,
           is_media_group := false, success := false,
           error_message := some e }],
      failed_forwards := acc.failed_forwards + 1,
      notifications := acc.notifications ++
        (if cfg.notify_admin_on_error then notify_admins_error cfg t e
         else []) }

/-- `TelegramForwardBot.forward_single_message`: iterate all configured
targets; each iteration is isolated by its own `try/except`. -/
def forward_single_message (cfg : BotConfig)
    (copyRes : Int → Except String Nat) (m : Msg) : DispatchOut :=
  cfg.target_channels.foldl (single_target_step cfg copyRes m)
    DispatchOut.empty

/-- The album payload built inside `forward_media_group` for one target:
`caption_text` from the first message when `add_source_info` is set, the
caption attached only to item 0 and only when truthy
(`if i == 0 and caption_text:`); messages `create_input_media` rejects
are skipped. -/
def album_caption (cfg : BotConfig) (m0 : Msg) : Option String :=
  let caption_text :=
    if cfg.add_source_info then some (build_caption cfg m0) else none
  if truthyOptStr caption_text then caption_text else none

def album_media (cfg : BotConfig) (m0 : Msg) (rest : List Msg) :
    List InputMedia :=
  (create_input_media m0 (album_caption cfg m0)).toList ++
    rest.filterMap (fun m => create_input_media m none)

/-- One iteration of the per-destination loop of
`TelegramForwardBot.forward_media_group`.  `albumRes t media` is the
outcome of `bot.send_media_group(chat_id=t, media=media)`; on success the
provider returns the list of sent message ids.  Success records are the
`zip(messages, sent_messages)` pairs; failure records cover every
original message.  If the built media list is empty, nothing is sent and
nothing is recorded. -/
def media_target_step (cfg : BotConfig)
    (albumRes : Int → List InputMedia → Except String (List Nat))
    (m0 : Msg) (rest : List Msg) (acc : DispatchOut) (t : Int) :
    DispatchOut :=
  let messages := m0 :: rest
  let media_list := album_media cfg m0 rest
  if media_list.isEmpty then acc
  else
    match albumRes t media_list with
    | .ok sent =>
      { acc with
        sends := acc.sends ++ [.album t media_list],
        records := acc.records ++
          (messages.zip sent).map (fun p =>
            { source_chat_id := p.1.chat_id, target_chat_id := t,
              original_message_id := p.1.message_id,
              forwarded_message_id := some p.2,
              content_type := get_message_type p.1,
              media_group_id := p.1.media_group_id,
              is_media_group := true, success := true,
              error_message := none }),
        messages_forwarded := acc.messages_forwarded + messages.length,
        media_groups_forwarded := acc.media_groups_forwarded + 1 }
    | .error e =>
      { acc with
        sends := acc.sends ++ [.album t media_list],
        records := acc.records ++
          messages.map (fun om =>
            { source_chat_id := om.chat_id, target_chat_id := t,
              original_message_id := om.message_id,
              forwarded_message_id := none,
              content_type := get_message_type om,
              media_group_id := om.media_group_id,
              is_media_group := true, success := false,
              error_message := some e }),
        failed_forwards := acc.failed_forwards + messages.length,
        notifications := acc.notifications ++
          (if cfg.notify_admin_on_error then notify_admins_error cfg t e
           else []) }

/-- `TelegramForwardBot.forward_media_group` on the batch `m0 :: rest`
(its only caller, `forward_messages_group`, guarantees a non-empty
batch). -/
def forward_media_group (cfg : BotConfig)
    (albumRes : Int → List InputMedia → Except String (List Nat))
    (m0 : Msg) (rest : List Msg) : DispatchOut :=
  { cfg.target_channels.foldl (media_target_step cfg albumRes m0 rest)
      DispatchOut.empty with albumPath := true }

/-- The tag the source computes in `forward_messages_group`:
`is_media_group = len(messages) > 1 and messages[0].media_group_id`
(Python truthiness of the group id string). -/
def code_isGroup (m0 : Msg) (rest : List Msg) : Bool :=
  decide (1 < (m0 :: rest).length) && truthyOptStr m0.media_group_id

/-- `TelegramForwardBot.forward_messages_group`: return immediately on an
empty batch or an empty target list (both before the configured delay);
otherwise apply the delay once, compute `code_isGroup` and dispatch via
the album or single-copy path. -/
def forward_messages_group (cfg : BotConfig)
    (albumRes : Int → List InputMedia → Except String (List Nat))
    (copyRes : Int → Except String Nat) (messages : List Msg) :
    DispatchOut :=
  match messages with
  | [] => DispatchOut.empty
  | m0 :: rest =>
    if cfg.target_channels.isEmpty then DispatchOut.empty
    else
      let delayed := decide (0 < cfg.delay_seconds)
      let is_media_group := code_isGroup m0 rest
      if is_media_group then
        { forward_media_group cfg albumRes m0 rest with
          delayApplied := delayed }
      else
        { forward_single_message cfg copyRes m0 with
          delayApplied := delayed }

/-!
## Delivery log (`log_forward`) and rate limiter (`utils.RateLimiter`)
-/

/-- Result of a Python call: normal return or a propagated exception. -/
inductive PyResult (α : Type) where
  | ok (a : α)
  | raised (e : String)
deriving DecidableEq

/-- `TelegramForwardBot.log_forward`.  `writeOutcome` is the outcome of
the database insert (`.error e` = any exception raised while connecting,
inserting or committing).  The surrounding `try/except Exception` turns a
failure into an operational log line (returned as `some report`) and the
function returns normally either way. -/
def log_forward (writeOutcome : Except String Unit) (_entry : DeliveryRecord) :
    PyResult (Option String) :=
  match writeOutcome with
  | .ok _ => .ok none
  | .error e => .ok (some ("记录转发日志失败: " ++ e))

/-- `utils.RateLimiter` state: the configured cap and the recorded
request timestamps (times in whole seconds). -/
structure RateLimiter where
  max_per_minute : Nat
  requests : List Nat
deriving DecidableEq

/-- The pruning step of `RateLimiter.acquire`: keep timestamps strictly
younger than 60 seconds (`now - req_time < timedelta(minutes=1)`). -/
def pruneReqs (reqs : List Nat) (now : Nat) : List Nat :=
  reqs.filter (fun r => decide (now < r + 60))

/-- `RateLimiter.acquire`: prune the window; refuse when it is full,
otherwise record `now` and admit. -/
def acquire (rl : RateLimiter) (now : Nat) : Bool × RateLimiter :=
  let pruned := pruneReqs rl.requests now
  if rl.max_per_minute ≤ pruned.length then
    (false, { rl with requests := pruned })
  else
    (true, { rl with requests := pruned ++ [now] })

/-- `RateLimiter.wait_if_needed`: on refusal, sleep
`60 - (now - min(requests)).seconds` and then return — without retrying
`acquire` and without recording the caller's send.  Returns the time at
which the caller proceeds with its send, and the limiter state; `none`
models the `ValueError` Python's `min([])` raises when the request list
is empty (only possible with `max_per_minute = 0`). -/
def wait_if_needed (rl : RateLimiter) (now : Nat) :
    Option (Nat × RateLimiter) :=
  match acquire rl now with
  | (true, rl2) => some (now, rl2)
  | (false, rl2) =>
    match rl2.requests.min? with
    | none => none
    | some m => some (now + (60 - (now - m)), rl2)

/-- A caller loop that calls `wait_if_needed` before each send: returns
the actual send times. -/
def runProtocol (rl : RateLimiter) : List Nat → Option (RateLimiter × List Nat)
  | [] => some (rl, [])
  | t :: ts =>
    match wait_if_needed rl t with
    | none => none
    | some (sendT, rl2) =>
      (runProtocol rl2 ts).map (fun p => (p.1, sendT :: p.2))

/-- A caller loop that calls `acquire` before each send and sends only
when admitted: returns the admitted (= recorded) send times. -/
def runAcquires (rl : RateLimiter) : List Nat → RateLimiter × List Nat
  | [] => (rl, [])
  | t :: ts =>
    match acquire rl t with
    | (ok, rl2) =>
      let r := runAcquires rl2 ts
      (r.1, if ok then t :: r.2 else r.2)

/-- Number of times in `l` that fall inside the 60-second window
`[w, w + 60)`. -/
def countWindow (l : List Nat) (w : Nat) : Nat :=
  (l.filter (fun a => decide (w ≤ a) && decide (a < w + 60))).length

/-!
## Aggregator runtime model with `asyncio` interleaving (single group)

`_process_group_after_timeout` is a coroutine: after its sleep it runs
synchronously up to the `await forward_callback(messages)` and only runs
its cleanup (`del self.media_groups[...]`, `del self.group_timers[...]`)
after that await returns.  `add_message` may therefore run while an
emission is suspended at that await; its `task.cancel()` then aborts the
in-flight emission at its await point, so the cleanup never runs.

`GroupRuntime` models this for one fixed group id.  A timer task is in
phase `sleeping` (inside `asyncio.sleep`), `sending` (emission issued,
suspended at `await forward_callback`), `done`, or `cancelled`.  Events:

* `arrive m` — `handle_message`/`add_message` for this group: append `m`
  to the buffer, `cancel()` the task recorded in `group_timers` (a no-op
  on an already-completed task), register a fresh sleeping timer task.
* `fire tid` — task `tid`'s sleep elapses: if the group is still
  buffered, sort the buffer in place, invoke `forward_callback` with it
  (recorded in `emissions`) and suspend; otherwise finish.
* `resume tid` — the awaited callback of task `tid` returns: run the
  cleanup, deleting the buffer and the (current) timer handle.

A trace is realizable when each `fire tid` happens `timeout_seconds`
after `tid` was created with no intervening `arrive`; the counterexample
trace below is realizable in real time.
-/

inductive Phase where
  | sleeping
  | sending
  | done
  | cancelled
deriving DecidableEq

structure GroupRuntime where
  buffer : Option (List Msg)
  handle : Option Nat
  tasks : List (Nat × Phase)
  nextId : Nat
  emissions : List (List Msg)
deriving DecidableEq

def GroupRuntime.init : GroupRuntime := ⟨none, none, [], 0, []⟩

def phaseOf (tasks : List (Nat × Phase)) (tid : Nat) : Phase :=
  ((tasks.find? (fun p => p.1 == tid)).map (·.2)).getD Phase.done

def setPhase (tasks : List (Nat × Phase)) (tid : Nat) (ph : Phase) :
    List (Nat × Phase) :=
  tasks.map (fun p => if p.1 == tid then (tid, ph) else p)

/-- `task.cancel()`: a task suspended at an await (its sleep, or the
emission's awaited send) is aborted; a finished task is unaffected. -/
def cancelTask (tasks : List (Nat × Phase)) (tid : Nat) :
    List (Nat × Phase) :=
  match phaseOf tasks tid with
  | .sleeping => setPhase tasks tid .cancelled
  | .sending => setPhase tasks tid .cancelled
  | _ => tasks

inductive AggEvent where
  | arrive (m : Msg)
  | fire (tid : Nat)
  | resume (tid : Nat)

/-- One scheduler step of the single-group runtime. -/
def aggStep (s : GroupRuntime) : AggEvent → GroupRuntime
  | .arrive m =>
    let buffer := some ((s.buffer.getD []) ++ [m])
    let tasks :=
      match s.handle with
      | some tid => cancelTask s.tasks tid
      | none => s.tasks
    { buffer := buffer,
      handle := some s.nextId,
      tasks := tasks ++ [(s.nextId, Phase.sleeping)],
      nextId := s.nextId + 1,
      emissions := s.emissions }
  | .fire tid =>
    if phaseOf s.tasks tid == Phase.sleeping then
      match s.buffer with
      | some msgs =>
        let sorted := sortByMsgId msgs
        { s with
          buffer := some sorted,
          tasks := setPhase s.tasks tid .sending,
          emissions := s.emissions ++ [sorted] }
      | none => { s with tasks := setPhase s.tasks tid .done }
    else s
  | .resume tid =>
    if phaseOf s.tasks tid == Phase.sending then
      { s with
        buffer := none,
        handle := none,
        tasks := setPhase s.tasks tid .done }
    else s

def runAgg (evs : List AggEvent) : GroupRuntime :=
  evs.foldl aggStep GroupRuntime.init

/-!
## Concrete fixtures and derived definitions used by the
theorems, witnesses and counterexamples below
-/

def cfgBase : BotConfig :=
  { source_channels := [1], target_channels := [100], admins := [9],
    preserve_sender := true, add_source_info := true,
    filter_content_types := [], keyword_filter := [],
    delay_seconds := 0, notify_admin_on_error := true }

def photoMsg (id : Nat) (g : Option String) : Msg :=
  { message_id := id, chat_id := 1, chat_title := some "Src",
    media_group_id := g, text := none, caption := none,
    photo := [7], video := none, document := none, audio := none,
    voice := none, sticker := none, animation := none, location := none,
    poll := none, from_user := none, date := 0 }

def videoMsg (id : Nat) (g : Option String) : Msg :=
  { photoMsg id g with photo := [], video := some 4 }

def stickerMsg (id : Nat) (g : Option String) : Msg :=
  { photoMsg id g with photo := [], sticker := some 3 }

def aliceMsg : Msg :=
  { photoMsg 1 none with
    caption := some "hello"
    from_user := some "Alice"
    date := 1700000000 }

/-- Config with the target list cleared and a positive delay. -/
def cfgNoTargets : BotConfig :=
  { cfgBase with target_channels := [], delay_seconds := 5 }

/-- Aggregator state after a sequence of `add_message` calls starting
from a fresh handler. -/
def agg_after (arr : List Msg) : AggState :=
  arr.foldl (fun s m => (add_message s m).1) AggState.empty

/-- The arrival order of the spec's scenario: ids 5, 3, 4 for group "g1". -/
def c1arr : List Msg :=
  [photoMsg 5 (some "g1"), photoMsg 3 (some "g1"), photoMsg 4 (some "g1")]

/-- The spec's tagging rule, stated from its words for comparison with
the source's `code_isGroup`: a batch is a group iff it has more than one
message or its messages carry an explicit (truthy) group identifier. -/
def spec_isGroup (messages : List Msg) : Bool :=
  decide (1 < messages.length) ||
    truthyOptStr
      (match messages with
       | [] => none
       | m :: _ => m.media_group_id)

/-- An album send that succeeds and returns one sent message per media
item (the provider's contract for `send_media_group`). -/
def okAlbumRes : Int → List InputMedia → Except String (List Nat) :=
  fun _ media => Except.ok (media.map (fun _ => 9))

/-- Destination of a provider call. -/
def SendEvent.target : SendEvent → Int
  | .album t _ => t
  | .copy t _ _ _ => t

def cfg2 : BotConfig := { cfgBase with target_channels := [100, 200] }

/-- Provider that fails on destination 100 and succeeds on 200. -/
def copyFail100 : Int → Except String Nat :=
  fun t => if t = 100 then Except.error "boom" else Except.ok 42

/-- Album provider that fails on destination 100 and succeeds on 200. -/
def albumFail100 : Int → List InputMedia → Except String (List Nat) :=
  fun t media =>
    if t = 100 then Except.error "boom"
    else Except.ok (media.map (fun _ => 7))

/-- Exclusion of a message from everything downstream of the filter:
it is in no batch handed to the dispatcher and in no group buffer
(hence it can produce no provider send and no DeliveryRecord). -/
def ExcludedFrom (m : Msg) (st : BotState) : Prop :=
  (∀ b ∈ st.dispatches, m ∉ b)
  ∧ ∀ g buf, alLookup st.agg.media_groups g = some buf → m ∉ buf

def cfgC6 : BotConfig := { cfgBase with filter_content_types := ["video"] }

def msgsC6 : List Msg := [photoMsg 1 (some "g"), videoMsg 2 (some "g")]

def m1g : Msg := photoMsg 1 (some "g")

def m2g : Msg := photoMsg 2 (some "g")

/-- The racing schedule: m1 arrives; the debounce timer (task 0) fires
and begins emitting, suspended at the awaited send; m2 arrives during
that await (appending to the buffer, cancelling task 0 — which kills its
pending cleanup — and starting timer task 1); task 1 fires.  Each step is
realizable in real time (task 0 fires 3s after m1 with no earlier
arrival; task 1 fires 3s after m2). -/
def c5trace : List AggEvent :=
  [AggEvent.arrive m1g, AggEvent.fire 0, AggEvent.arrive m2g,
   AggEvent.fire 1]

/-!
## Helper lemmas
-/

theorem alLookup_alInsert_self {α : Type} (l : List (String × α)) (k : String)
    (v : α) : alLookup (alInsert l k v) k = some v := by
  induction l with
  | nil => simp [alInsert, alLookup]
  | cons p ps ih =>
    by_cases hp : (p.1 == k) = true
    · simp [alInsert, alLookup, List.find?_cons, hp]
    · rw [Bool.not_eq_true] at hp
      simpa [alInsert, alLookup, List.find?_cons, hp] using ih

theorem alLookup_alInsert_ne {α : Type} (l : List (String × α)) (k k' : String)
    (v : α) (h : (k' == k) = false) :
    alLookup (alInsert l k v) k' = alLookup l k' := by
  have hkk : (k == k') = false := by
    simp only [beq_eq_false_iff_ne] at h ⊢
    exact fun he => h he.symm
  induction l with
  | nil => simp [alInsert, alLookup, List.find?_cons, hkk]
  | cons p ps ih =>
    by_cases hp : (p.1 == k) = true
    · have hpk : p.1 = k := by simpa using hp
      have hp' : (p.1 == k') = false := by rw [hpk]; exact hkk
      simp [alInsert, alLookup, List.find?_cons, hp, hp', hkk]
    · rw [Bool.not_eq_true] at hp
      by_cases hq : (p.1 == k') = true
      · simp [alInsert, alLookup, List.find?_cons, hp, hq]
      · rw [Bool.not_eq_true] at hq
        simpa [alInsert, alLookup, List.find?_cons, hp, hq] using ih

theorem alLookup_alErase_self {α : Type} (l : List (String × α))
    (k : String) : alLookup (alErase l k) k = none := by
  induction l with
  | nil => simp [alErase, alLookup]
  | cons p ps ih =>
    by_cases hp : p.1 == k
    · rw [show alErase (p :: ps) k = alErase ps k by simp [alErase, hp]]
      exact ih
    · rw [show alErase (p :: ps) k = p :: alErase ps k by simp [alErase, hp]]
      rw [show alLookup (p :: alErase ps k) k = alLookup (alErase ps k) k by
        simp [alLookup, List.find?_cons, hp]]
      exact ih

theorem filterMap_length_of_isSome {α β : Type} (l : List α)
    (f : α → Option β) (h : ∀ a ∈ l, (f a).isSome) :
    (l.filterMap f).length = l.length := by
  induction l with
  | nil => rfl
  | cons a as ih =>
    have ha := h a (by simp)
    cases hf : f a with
    | none => rw [hf] at ha; simp at ha
    | some b =>
      simp only [List.filterMap_cons, hf, List.length_cons]
      rw [ih (fun x hx => h x (by simp [hx]))]

theorem create_input_media_isSome (m : Msg) (c : Option String) :
    (create_input_media m c).isSome = representable m := by
  unfold create_input_media representable
  cases hp : m.photo.getLast? with
  | some p =>
    have : m.photo ≠ [] := by
      intro he; rw [he] at hp; simp at hp
    simp [this, List.isEmpty_iff]
  | none =>
    have hnil : m.photo = [] := by
      by_contra hne
      have := List.getLast?_isSome.mpr hne
      rw [hp] at this; simp at this
    cases m.video <;> cases m.document <;> cases m.audio <;>
      simp [hnil]

/-!
## C3 — caption construction
-/

/-- C3: the claim fails and the source is the slip: `build_caption`
computes `chat_title`, `sender_name` and `time_str` but appends only
empty f-string literals, so for every configuration and message it
returns the original caption unchanged.  In particular, for a captioned
message from sender "Alice" with both `add_source_info` and
`preserve_sender` enabled, the built caption is exactly `"hello"` and
contains neither the sender's name nor any timestamp text. -/
theorem build_caption_returns_caption_unchanged :
    (∀ cfg m, build_caption cfg m = m.caption.getD "")
    ∧ build_caption cfgBase aliceMsg = "hello"
    ∧ strContains (build_caption cfgBase aliceMsg) "Alice" = false := by
  have hgen : ∀ cfg m, build_caption cfg m = m.caption.getD "" := by
    intro cfg m
    unfold build_caption
    by_cases ha : cfg.add_source_info
    · by_cases hu : m.from_user.isSome && cfg.preserve_sender <;>
        simp [ha, hu, String.append_empty]
    · simp [ha]
  refine ⟨hgen, ?_, ?_⟩
  · rw [hgen]; rfl
  · rw [hgen]; decide

/-!
## C9 — delivery log never throws past its caller
-/

/-- C9: `log_forward` returns normally for every persistence outcome:
a successful insert reports nothing, and any raised persistence error is
caught and converted to an operational log line — it is never re-raised,
so the dispatch loop that called it continues. -/
theorem log_forward_never_raises :
    (∀ w entry, ∃ report, log_forward w entry = PyResult.ok report)
    ∧ (∀ entry, log_forward (Except.ok ()) entry = PyResult.ok none)
    ∧ ∀ e entry, log_forward (Except.error e) entry
        = PyResult.ok (some ("记录转发日志失败: " ++ e)) := by
  refine ⟨?_, fun _ => rfl, fun _ _ => rfl⟩
  intro w entry
  cases w with
  | ok u => exact ⟨none, rfl⟩
  | error e => exact ⟨some ("记录转发日志失败: " ++ e), rfl⟩

/-!
## C10 — empty batch / empty target list: immediate no-op return
-/

/-- C10: with an empty batch or an empty configured target list,
`forward_messages_group` returns before the delay: no delay is applied,
no provider send is issued, no DeliveryRecord is written, no
notification is sent and every stats counter delta is zero. -/
theorem forward_messages_group_empty_noop (cfg : BotConfig)
    (albumRes : Int → List InputMedia → Except String (List Nat))
    (copyRes : Int → Except String Nat) (messages : List Msg)
    (h : messages = [] ∨ cfg.target_channels = []) :
    forward_messages_group cfg albumRes copyRes messages
      = DispatchOut.empty := by
  cases h with
  | inl hm => subst hm; rfl
  | inr ht =>
    cases messages with
    | nil => rfl
    | cons m0 rest => simp [forward_messages_group, ht]

/-- Witness for C10: delay 5, a non-empty batch, but no configured
targets — the dispatch is a complete no-op. -/
theorem forward_messages_group_empty_noop_witness :
    cfgNoTargets.target_channels = []
    ∧ forward_messages_group cfgNoTargets
        (fun _ _ => Except.ok []) (fun _ => Except.ok 0)
        [photoMsg 1 none] = DispatchOut.empty :=
  ⟨rfl, forward_messages_group_empty_noop _ _ _ _ (Or.inr rfl)⟩

/-!
## C1 — debounce expiry emits the sorted batch and clears the group
-/

theorem add_message_grouped (st : AggState) (m : Msg) (g : String)
    (hm : m.media_group_id = some g) (hgt : g ≠ "") :
    (add_message st m).1.media_groups
      = alInsert st.media_groups g
          ((alLookup st.media_groups g).getD [] ++ [m])
    ∧ (add_message st m).2 = none := by
  have hemp : g.isEmpty = false := by
    cases hge : g.isEmpty
    · rfl
    · exact absurd (by simpa [String.isEmpty_iff] using hge) hgt
  constructor <;> simp [add_message, hm, truthyOptStr, hemp]

theorem fold_add_lookup (g : String) (hgt : g ≠ "") :
    ∀ (rest : List Msg) (st : AggState) (buf : List Msg),
      (∀ m ∈ rest, m.media_group_id = some g) →
      alLookup st.media_groups g = some buf →
      alLookup
        ((rest.foldl (fun s m => (add_message s m).1) st).media_groups) g
        = some (buf ++ rest) := by
  intro rest
  induction rest with
  | nil => intro st buf _ hl; simpa using hl
  | cons m ms ih =>
    intro st buf hall hl
    rw [List.foldl_cons]
    have hstep :
        alLookup ((add_message st m).1.media_groups) g = some (buf ++ [m]) := by
      rw [(add_message_grouped st m g (hall m (by simp)) hgt).1,
        alLookup_alInsert_self, hl]
      rfl
    have := ih (add_message st m).1 (buf ++ [m])
      (fun x hx => hall x (by simp [hx])) hstep
    rw [this, List.append_assoc]
    rfl

theorem agg_after_lookup (g : String) (hgt : g ≠ "") (m : Msg)
    (ms : List Msg) (hall : ∀ x ∈ m :: ms, x.media_group_id = some g) :
    alLookup (agg_after (m :: ms)).media_groups g = some (m :: ms) := by
  unfold agg_after
  rw [List.foldl_cons]
  have hstep :
      alLookup ((add_message AggState.empty m).1.media_groups) g = some [m] := by
    rw [(add_message_grouped AggState.empty m g (hall m (by simp)) hgt).1]
    simpa [AggState.empty, alLookup] using alLookup_alInsert_self [] g [m]
  simpa using fold_add_lookup g hgt ms (add_message AggState.empty m).1 [m]
    (fun x hx => hall x (by simp [hx])) hstep

/-- C1: after any sequence of arrivals for group `g` (all within the
debounce window, so no emission interleaves), the expiry of the debounce
timer emits exactly the arrived messages sorted ascending by message id
— the emitted batch is a permutation of the arrivals and is sorted —
and afterwards neither the group's buffer nor its timer handle remains. -/
theorem aggregator_emits_sorted_batch (g : String) (arr : List Msg)
    (hne : arr ≠ []) (hg : ∀ m ∈ arr, m.media_group_id = some g)
    (hgt : g ≠ "") :
    (process_group_after_timeout (agg_after arr) g).1 = some (sortByMsgId arr)
    ∧ (sortByMsgId arr).Perm arr
    ∧ List.Pairwise (fun a b => a.message_id ≤ b.message_id) (sortByMsgId arr)
    ∧ alLookup
        (process_group_after_timeout (agg_after arr) g).2.media_groups g
        = none
    ∧ alLookup
        (process_group_after_timeout (agg_after arr) g).2.group_timers g
        = none := by
  match arr, hne with
  | m :: ms, _ =>
    have hl := agg_after_lookup g hgt m ms hg
    refine ⟨?_, ?_, ?_, ?_, ?_⟩
    · simp [process_group_after_timeout, hl]
    · exact List.perm_insertionSort msgIdRel (m :: ms)
    · exact List.sorted_insertionSort msgIdRel (m :: ms)
    · simp [process_group_after_timeout, hl, alLookup_alErase_self]
    · simp [process_group_after_timeout, hl, alLookup_alErase_self]

/-- Witness for C1 at the spec's scenario: arrivals [5, 3, 4] for group
"g1" are emitted as [3, 4, 5], and buffer and timer handle are gone. -/
theorem aggregator_emits_sorted_batch_witness :
    (c1arr ≠ [] ∧ (∀ m ∈ c1arr, m.media_group_id = some "g1")
      ∧ "g1" ≠ "")
    ∧ (process_group_after_timeout (agg_after c1arr) "g1").1
        = some [photoMsg 3 (some "g1"), photoMsg 4 (some "g1"),
            photoMsg 5 (some "g1")]
    ∧ alLookup
        (process_group_after_timeout (agg_after c1arr) "g1").2.media_groups
        "g1" = none
    ∧ alLookup
        (process_group_after_timeout (agg_after c1arr) "g1").2.group_timers
        "g1" = none := by
  have h := aggregator_emits_sorted_batch "g1" c1arr (by decide)
    (by decide) (by decide)
  refine ⟨⟨by decide, by decide, by decide⟩, ?_, h.2.2.2.1, h.2.2.2.2⟩
  rw [h.1]
  decide

/-!
## C7 — the group tag
-/

theorem media_fold_step_ismg (cfg : BotConfig)
    (albumRes : Int → List InputMedia → Except String (List Nat))
    (m0 : Msg) (rest : List Msg) :
    ∀ (ts : List Int) (acc : DispatchOut),
      (∀ r ∈ acc.records, r.is_media_group = true) →
      ∀ r ∈ (ts.foldl (media_target_step cfg albumRes m0 rest) acc).records,
        r.is_media_group = true := by
  intro ts
  induction ts with
  | nil => intro acc hacc; simpa using hacc
  | cons t ts ih =>
    intro acc hacc
    rw [List.foldl_cons]
    apply ih
    intro r hr
    unfold media_target_step at hr
    by_cases he : (album_media cfg m0 rest).isEmpty
    · simp only [he, if_true] at hr
      exact hacc r hr
    · simp only [he, if_false] at hr
      cases hres : albumRes t (album_media cfg m0 rest) with
      | ok sent =>
        simp only [hres] at hr
        rcases List.mem_append.1 hr with h | h
        · exact hacc r h
        · rcases List.mem_map.1 h with ⟨p, _, hp⟩
          rw [← hp]
      | error e =>
        simp only [hres] at hr
        rcases List.mem_append.1 hr with h | h
        · exact hacc r h
        · rcases List.mem_map.1 h with ⟨p, _, hp⟩
          rw [← hp]

theorem single_fold_step_not_ismg (cfg : BotConfig)
    (copyRes : Int → Except String Nat) (m : Msg) :
    ∀ (ts : List Int) (acc : DispatchOut),
      (∀ r ∈ acc.records, r.is_media_group = false) →
      ∀ r ∈ (ts.foldl (single_target_step cfg copyRes m) acc).records,
        r.is_media_group = false := by
  intro ts
  induction ts with
  | nil => intro acc hacc; simpa using hacc
  | cons t ts ih =>
    intro acc hacc
    rw [List.foldl_cons]
    apply ih
    intro r hr
    unfold single_target_step at hr
    cases hres : copyRes t with
    | ok fid =>
      simp only [hres] at hr
      rcases List.mem_append.1 hr with h | h
      · exact hacc r h
      · simp only [List.mem_singleton] at h
        rw [h]
    | error e =>
      simp only [hres] at hr
      rcases List.mem_append.1 hr with h | h
      · exact hacc r h
      · simp only [List.mem_singleton] at h
        rw [h]

theorem single_fold_albumPath (cfg : BotConfig)
    (copyRes : Int → Except String Nat) (m : Msg) :
    ∀ (ts : List Int) (acc : DispatchOut),
      (ts.foldl (single_target_step cfg copyRes m) acc).albumPath
        = acc.albumPath := by
  intro ts
  induction ts with
  | nil => intro acc; rfl
  | cons t ts ih =>
    intro acc
    rw [List.foldl_cons, ih]
    unfold single_target_step
    cases copyRes t <;> rfl

/-- C7, amended: for a non-empty batch and a non-empty target list, the
batch is dispatched as an album, and each of its delivery records is
tagged `is_media_group = true`, exactly when
`len(messages) > 1 AND messages[0].media_group_id` is truthy — a
conjunction, not the claimed disjunction. -/
theorem forward_messages_group_tag (cfg : BotConfig)
    (albumRes : Int → List InputMedia → Except String (List Nat))
    (copyRes : Int → Except String Nat) (m0 : Msg) (rest : List Msg)
    (h : cfg.target_channels ≠ []) :
    (forward_messages_group cfg albumRes copyRes (m0 :: rest)).albumPath
      = code_isGroup m0 rest
    ∧ ∀ r ∈ (forward_messages_group cfg albumRes copyRes
        (m0 :: rest)).records,
        r.is_media_group = code_isGroup m0 rest := by
  have he : cfg.target_channels.isEmpty = false := by
    simpa [List.isEmpty_iff] using h
  cases hg : code_isGroup m0 rest with
  | true =>
    constructor
    · simp [forward_messages_group, he, hg, forward_media_group]
    · intro r hr
      simp only [forward_messages_group, he, hg, Bool.false_eq_true,
        if_false, if_true] at hr
      have hr2 : r ∈ (forward_media_group cfg albumRes m0 rest).records := hr
      have : ∀ x ∈ (forward_media_group cfg albumRes m0 rest).records,
          x.is_media_group = true := by
        unfold forward_media_group
        intro x hx
        exact media_fold_step_ismg cfg albumRes m0 rest
          cfg.target_channels DispatchOut.empty (by simp [DispatchOut.empty])
          x hx
      rw [this r hr2]
  | false =>
    constructor
    · simp [forward_messages_group, he, hg, forward_single_message,
        single_fold_albumPath, DispatchOut.empty]
    · intro r hr
      simp only [forward_messages_group, he, hg, Bool.false_eq_true,
        if_false, if_true] at hr
      have hr2 : r ∈ (forward_single_message cfg copyRes m0).records := hr
      rw [single_fold_step_not_ismg cfg copyRes m0 cfg.target_channels
        DispatchOut.empty (by simp [DispatchOut.empty]) r hr2]

/-- Witness for the amended C7: a two-message album with group id "g"
takes the album path and all its records are tagged as a media group. -/
theorem forward_messages_group_tag_witness :
    cfgBase.target_channels ≠ []
    ∧ (forward_messages_group cfgBase (fun _ _ => Except.ok [11, 12])
        (fun _ => Except.ok 50)
        [photoMsg 1 (some "g"), photoMsg 2 (some "g")]).albumPath
        = code_isGroup (photoMsg 1 (some "g")) [photoMsg 2 (some "g")]
    ∧ ∀ r ∈ (forward_messages_group cfgBase (fun _ _ => Except.ok [11, 12])
        (fun _ => Except.ok 50)
        [photoMsg 1 (some "g"), photoMsg 2 (some "g")]).records,
        r.is_media_group = code_isGroup (photoMsg 1 (some "g"))
          [photoMsg 2 (some "g")] := by
  have h := forward_messages_group_tag cfgBase
    (fun _ _ => Except.ok [11, 12]) (fun _ => Except.ok 50)
    (photoMsg 1 (some "g")) [photoMsg 2 (some "g")] (by decide)
  exact ⟨by decide, h.1, h.2⟩

/-- Counterexample to C7 as stated: a batch of a single message that
carries an explicit group id "g" satisfies the spec's disjunctive
tagging rule, but the source tags it `False` (conjunction): it is
dispatched via the single-copy path and its delivery record has
`is_media_group = false`. -/
theorem forward_messages_group_tag_cex :
    spec_isGroup [photoMsg 1 (some "g")] = true
    ∧ (forward_messages_group cfgBase (fun _ _ => Except.ok [11])
        (fun _ => Except.ok 50) [photoMsg 1 (some "g")]).albumPath = false
    ∧ ∀ r ∈ (forward_messages_group cfgBase (fun _ _ => Except.ok [11])
        (fun _ => Except.ok 50) [photoMsg 1 (some "g")]).records,
        r.is_media_group = false := by
  refine ⟨by decide, by decide, by decide⟩

/-!
## C2 — DeliveryRecord count per dispatched batch
-/

theorem album_media_length (cfg : BotConfig) (m0 : Msg) (rest : List Msg)
    (hrep : ∀ m ∈ m0 :: rest, representable m = true) :
    (album_media cfg m0 rest).length = (m0 :: rest).length := by
  unfold album_media
  have h0 : (create_input_media m0 (album_caption cfg m0)).isSome := by
    rw [create_input_media_isSome]
    exact hrep m0 (by simp)
  cases hc : create_input_media m0 (album_caption cfg m0) with
  | none => rw [hc] at h0; simp at h0
  | some im =>
    rw [List.length_append,
      filterMap_length_of_isSome rest _ (fun m hm => by
        rw [create_input_media_isSome]
        exact hrep m (by simp [hm]))]
    simp
    omega

theorem media_fold_records_length (cfg : BotConfig)
    (albumRes : Int → List InputMedia → Except String (List Nat))
    (m0 : Msg) (rest : List Msg)
    (hrep : ∀ m ∈ m0 :: rest, representable m = true)
    (hsent : ∀ t media sent, albumRes t media = Except.ok sent →
      sent.length = media.length) :
    ∀ (ts : List Int) (acc : DispatchOut),
      ((ts.foldl (media_target_step cfg albumRes m0 rest) acc).records).length
        = acc.records.length + ts.length * (m0 :: rest).length := by
  have hlen := album_media_length cfg m0 rest hrep
  have hne : (album_media cfg m0 rest).isEmpty = false := by
    cases h : (album_media cfg m0 rest).isEmpty
    · rfl
    · have : album_media cfg m0 rest = [] := by simpa [List.isEmpty_iff] using h
      rw [this] at hlen
      simp at hlen
  intro ts
  induction ts with
  | nil => intro acc; simp
  | cons t ts ih =>
    intro acc
    rw [List.foldl_cons, ih]
    have hstep : (media_target_step cfg albumRes m0 rest acc t).records.length
        = acc.records.length + (m0 :: rest).length := by
      simp only [media_target_step, hne, Bool.false_eq_true, if_false]
      cases hres : albumRes t (album_media cfg m0 rest) with
      | ok sent =>
        have hs : sent.length = (m0 :: rest).length := by
          rw [hsent t _ sent hres, hlen]
        simp only [List.length_append, List.length_map, List.length_zip,
          hs, Nat.min_self]
      | error e =>
        simp [List.length_append, List.length_map]
    rw [hstep]
    simp only [List.length_cons]
    ring

/-- C2, amended: when every message of the batch has a content kind the
outbound album format can represent (photo, video, document or audio),
dispatching the batch to the configured destinations writes exactly
`N × |batch|` DeliveryRecords (success and failure combined).  When some
message is not representable this fails: see the counterexample. -/
theorem forward_media_group_record_count (cfg : BotConfig)
    (albumRes : Int → List InputMedia → Except String (List Nat))
    (m0 : Msg) (rest : List Msg)
    (hrep : ∀ m ∈ m0 :: rest, representable m = true)
    (hsent : ∀ t media sent, albumRes t media = Except.ok sent →
      sent.length = media.length) :
    (forward_media_group cfg albumRes m0 rest).records.length
      = cfg.target_channels.length * (m0 :: rest).length := by
  unfold forward_media_group
  have := media_fold_records_length cfg albumRes m0 rest hrep hsent
    cfg.target_channels DispatchOut.empty
  simpa [DispatchOut.empty] using this

/-- Witness for the amended C2: a photo + video album (both
representable), one destination, successful send — 1 × 2 records. -/
theorem forward_media_group_record_count_witness :
    (∀ m ∈ [photoMsg 1 (some "g"), videoMsg 2 (some "g")],
      representable m = true)
    ∧ (forward_media_group cfgBase okAlbumRes (photoMsg 1 (some "g"))
        [videoMsg 2 (some "g")]).records.length
      = cfgBase.target_channels.length * 2 :=
  ⟨by decide,
   forward_media_group_record_count cfgBase okAlbumRes _ _ (by decide)
     (fun t media sent h => by
       simp only [okAlbumRes] at h
       cases h
       simp)⟩

/-- Counterexample to C2 as stated: a batch of a photo and a sticker
(the sticker is not representable as album input media) dispatched to
one destination with a successful send yields 1 DeliveryRecord, not
`N × |batch| = 2`: the success path logs `zip(messages, sent_messages)`
and the skipped sticker silently gets no record. -/
theorem forward_media_group_record_count_cex :
    (forward_media_group cfgBase okAlbumRes (photoMsg 1 (some "g"))
      [stickerMsg 2 (some "g")]).records.length = 1
    ∧ (1 : Nat) ≠ cfgBase.target_channels.length * 2 := by
  refine ⟨by decide, by decide⟩

/-!
## C4 — per-destination failure isolation
-/

theorem single_step_mono (cfg : BotConfig)
    (copyRes : Int → Except String Nat) (m : Msg) (acc : DispatchOut)
    (t : Int) :
    ∃ d n, (single_target_step cfg copyRes m acc t).records
        = acc.records ++ d
      ∧ (single_target_step cfg copyRes m acc t).notifications
        = acc.notifications ++ n := by
  unfold single_target_step
  cases copyRes t with
  | ok fid => exact ⟨_, [], rfl, (List.append_nil _).symm⟩
  | error e => exact ⟨_, _, rfl, rfl⟩

theorem single_fold_mono (cfg : BotConfig)
    (copyRes : Int → Except String Nat) (m : Msg) :
    ∀ (ts : List Int) (acc : DispatchOut),
      ∃ d n, (ts.foldl (single_target_step cfg copyRes m) acc).records
          = acc.records ++ d
        ∧ (ts.foldl (single_target_step cfg copyRes m) acc).notifications
          = acc.notifications ++ n := by
  intro ts
  induction ts with
  | nil =>
    intro acc
    exact ⟨[], [], (List.append_nil _).symm, (List.append_nil _).symm⟩
  | cons t ts ih =>
    intro acc
    obtain ⟨d1, n1, hr1, hn1⟩ := single_step_mono cfg copyRes m acc t
    obtain ⟨d2, n2, hr2, hn2⟩ := ih (single_target_step cfg copyRes m acc t)
    exact ⟨d1 ++ d2, n1 ++ n2,
      by rw [List.foldl_cons, hr2, hr1, List.append_assoc],
      by rw [List.foldl_cons, hn2, hn1, List.append_assoc]⟩

theorem single_fold_sends (cfg : BotConfig)
    (copyRes : Int → Except String Nat) (m : Msg) :
    ∀ (ts : List Int) (acc : DispatchOut),
      ((ts.foldl (single_target_step cfg copyRes m) acc).sends).map
          SendEvent.target
        = acc.sends.map SendEvent.target ++ ts := by
  intro ts
  induction ts with
  | nil => intro acc; simp
  | cons t ts ih =>
    intro acc
    have hst : (single_target_step cfg copyRes m acc t).sends
        = acc.sends ++ [SendEvent.copy t m.chat_id m.message_id
            (if cfg.add_source_info then some (build_caption cfg m)
             else none)] := by
      unfold single_target_step
      cases copyRes t <;> rfl
    rw [List.foldl_cons, ih, hst]
    simp [SendEvent.target]

theorem single_fold_rec_targets (cfg : BotConfig)
    (copyRes : Int → Except String Nat) (m : Msg) :
    ∀ (ts : List Int) (acc : DispatchOut),
      ((ts.foldl (single_target_step cfg copyRes m) acc).records).map
          (fun r => r.target_chat_id)
        = acc.records.map (fun r => r.target_chat_id) ++ ts := by
  intro ts
  induction ts with
  | nil => intro acc; simp
  | cons t ts ih =>
    intro acc
    have hst : ((single_target_step cfg copyRes m acc t).records).map
        (fun r => r.target_chat_id)
        = acc.records.map (fun r => r.target_chat_id) ++ [t] := by
      unfold single_target_step
      cases copyRes t <;> simp
    rw [List.foldl_cons, ih, hst]
    simp

theorem single_fold_fail_mem (cfg : BotConfig)
    (copyRes : Int → Except String Nat) (m : Msg) :
    ∀ (ts : List Int) (acc : DispatchOut) (t : Int) (e : String),
      t ∈ ts → copyRes t = Except.error e →
      ∃ r ∈ (ts.foldl (single_target_step cfg copyRes m) acc).records,
        r.target_chat_id = t ∧ r.success = false
          ∧ r.error_message = some e := by
  intro ts
  induction ts with
  | nil => intro acc t e ht _; simp at ht
  | cons t' ts ih =>
    intro acc t e ht hres
    rw [List.foldl_cons]
    rcases List.mem_cons.1 ht with h | h
    · subst h
      obtain ⟨d, n, hr, _⟩ :=
        single_fold_mono cfg copyRes m ts (single_target_step cfg copyRes m acc t)
      have hmem : ∃ r ∈ (single_target_step cfg copyRes m acc t).records,
          r.target_chat_id = t ∧ r.success = false
            ∧ r.error_message = some e := by
        unfold single_target_step
        rw [hres]
        exact ⟨_, List.mem_append_right _ (List.mem_singleton_self _),
          rfl, rfl, rfl⟩
      obtain ⟨r, hrmem, hp⟩ := hmem
      exact ⟨r, by rw [hr]; exact List.mem_append_left _ hrmem, hp⟩
    · exact ih (single_target_step cfg copyRes m acc t') t e h hres

theorem single_fold_notify_mem (cfg : BotConfig)
    (copyRes : Int → Except String Nat) (m : Msg) :
    ∀ (ts : List Int) (acc : DispatchOut) (t : Int) (e : String),
      t ∈ ts → copyRes t = Except.error e →
      cfg.notify_admin_on_error = true →
      ∀ a ∈ cfg.admins,
        (a, t, e) ∈ (ts.foldl (single_target_step cfg copyRes m)
          acc).notifications := by
  intro ts
  induction ts with
  | nil => intro acc t e ht _; simp at ht
  | cons t' ts ih =>
    intro acc t e ht hres hen a ha
    rw [List.foldl_cons]
    rcases List.mem_cons.1 ht with h | h
    · subst h
      obtain ⟨d, n, _, hn⟩ :=
        single_fold_mono cfg copyRes m ts (single_target_step cfg copyRes m acc t)
      have hmem : (a, t, e)
          ∈ (single_target_step cfg copyRes m acc t).notifications := by
        unfold single_target_step
        rw [hres]
        simp only [hen, if_true]
        exact List.mem_append_right _
          (List.mem_map.2 ⟨a, ha, rfl⟩)
      rw [hn]
      exact List.mem_append_left _ hmem
    · exact ih (single_target_step cfg copyRes m acc t') t e h hres hen a ha

theorem media_step_mono (cfg : BotConfig)
    (albumRes : Int → List InputMedia → Except String (List Nat))
    (m0 : Msg) (rest : List Msg) (acc : DispatchOut) (t : Int) :
    ∃ d n, (media_target_step cfg albumRes m0 rest acc t).records
        = acc.records ++ d
      ∧ (media_target_step cfg albumRes m0 rest acc t).notifications
        = acc.notifications ++ n := by
  unfold media_target_step
  by_cases he : (album_media cfg m0 rest).isEmpty
  · simp only [he, if_true]
    exact ⟨[], [], (List.append_nil _).symm, (List.append_nil _).symm⟩
  · simp only [he, Bool.false_eq_true, if_false]
    cases albumRes t (album_media cfg m0 rest) with
    | ok sent => exact ⟨_, [], rfl, (List.append_nil _).symm⟩
    | error e => exact ⟨_, _, rfl, rfl⟩

theorem media_fold_mono (cfg : BotConfig)
    (albumRes : Int → List InputMedia → Except String (List Nat))
    (m0 : Msg) (rest : List Msg) :
    ∀ (ts : List Int) (acc : DispatchOut),
      ∃ d n,
        (ts.foldl (media_target_step cfg albumRes m0 rest) acc).records
          = acc.records ++ d
        ∧ (ts.foldl (media_target_step cfg albumRes m0 rest)
            acc).notifications = acc.notifications ++ n := by
  intro ts
  induction ts with
  | nil =>
    intro acc
    exact ⟨[], [], (List.append_nil _).symm, (List.append_nil _).symm⟩
  | cons t ts ih =>
    intro acc
    obtain ⟨d1, n1, hr1, hn1⟩ := media_step_mono cfg albumRes m0 rest acc t
    obtain ⟨d2, n2, hr2, hn2⟩ :=
      ih (media_target_step cfg albumRes m0 rest acc t)
    exact ⟨d1 ++ d2, n1 ++ n2,
      by rw [List.foldl_cons, hr2, hr1, List.append_assoc],
      by rw [List.foldl_cons, hn2, hn1, List.append_assoc]⟩

theorem media_fold_sends (cfg : BotConfig)
    (albumRes : Int → List InputMedia → Except String (List Nat))
    (m0 : Msg) (rest : List Msg)
    (hne : (album_media cfg m0 rest).isEmpty = false) :
    ∀ (ts : List Int) (acc : DispatchOut),
      ((ts.foldl (media_target_step cfg albumRes m0 rest) acc).sends).map
          SendEvent.target
        = acc.sends.map SendEvent.target ++ ts := by
  intro ts
  induction ts with
  | nil => intro acc; simp
  | cons t ts ih =>
    intro acc
    have hst : (media_target_step cfg albumRes m0 rest acc t).sends
        = acc.sends ++ [SendEvent.album t (album_media cfg m0 rest)] := by
      unfold media_target_step
      simp only [hne, Bool.false_eq_true, if_false]
      cases albumRes t (album_media cfg m0 rest) <;> rfl
    rw [List.foldl_cons, ih, hst]
    simp [SendEvent.target]

theorem media_fold_fail_mem (cfg : BotConfig)
    (albumRes : Int → List InputMedia → Except String (List Nat))
    (m0 : Msg) (rest : List Msg)
    (hne : (album_media cfg m0 rest).isEmpty = false) :
    ∀ (ts : List Int) (acc : DispatchOut) (t : Int) (e : String)
      (msg : Msg),
      t ∈ ts → albumRes t (album_media cfg m0 rest) = Except.error e →
      msg ∈ m0 :: rest →
      ∃ r ∈ (ts.foldl (media_target_step cfg albumRes m0 rest) acc).records,
        r.target_chat_id = t ∧ r.original_message_id = msg.message_id
          ∧ r.success = false ∧ r.error_message = some e := by
  intro ts
  induction ts with
  | nil => intro acc t e msg ht _ _; simp at ht
  | cons t' ts ih =>
    intro acc t e msg ht hres hmsg
    rw [List.foldl_cons]
    rcases List.mem_cons.1 ht with h | h
    · subst h
      obtain ⟨d, n, hr, _⟩ := media_fold_mono cfg albumRes m0 rest ts
        (media_target_step cfg albumRes m0 rest acc t)
      have hmem : ∃ r ∈ (media_target_step cfg albumRes m0 rest acc t).records,
          r.target_chat_id = t ∧ r.original_message_id = msg.message_id
            ∧ r.success = false ∧ r.error_message = some e := by
        unfold media_target_step
        simp only [hne, Bool.false_eq_true, if_false, hres]
        exact ⟨_, List.mem_append_right _ (List.mem_map.2 ⟨msg, hmsg, rfl⟩),
          rfl, rfl, rfl, rfl⟩
      obtain ⟨r, hrmem, hp⟩ := hmem
      exact ⟨r, by rw [hr]; exact List.mem_append_left _ hrmem, hp⟩
    · exact ih (media_target_step cfg albumRes m0 rest acc t') t e msg h
        hres hmsg

theorem media_fold_notify_mem (cfg : BotConfig)
    (albumRes : Int → List InputMedia → Except String (List Nat))
    (m0 : Msg) (rest : List Msg)
    (hne : (album_media cfg m0 rest).isEmpty = false) :
    ∀ (ts : List Int) (acc : DispatchOut) (t : Int) (e : String),
      t ∈ ts → albumRes t (album_media cfg m0 rest) = Except.error e →
      cfg.notify_admin_on_error = true →
      ∀ a ∈ cfg.admins,
        (a, t, e) ∈ (ts.foldl (media_target_step cfg albumRes m0 rest)
          acc).notifications := by
  intro ts
  induction ts with
  | nil => intro acc t e ht _; simp at ht
  | cons t' ts ih =>
    intro acc t e ht hres hen a ha
    rw [List.foldl_cons]
    rcases List.mem_cons.1 ht with h | h
    · subst h
      obtain ⟨d, n, _, hn⟩ := media_fold_mono cfg albumRes m0 rest ts
        (media_target_step cfg albumRes m0 rest acc t)
      have hmem : (a, t, e)
          ∈ (media_target_step cfg albumRes m0 rest acc t).notifications := by
        unfold media_target_step
        simp only [hne, Bool.false_eq_true, if_false, hres, hen, if_true]
        exact List.mem_append_right _ (List.mem_map.2 ⟨a, ha, rfl⟩)
      rw [hn]
      exact List.mem_append_left _ hmem
    · exact ih (media_target_step cfg albumRes m0 rest acc t') t e h hres
        hen a ha

/-- C4: failure isolation of the per-destination loops.  For the
single-copy path: a provider call is issued for every destination in
configuration order and one record is written per destination whatever
the outcomes — so a failure at destination `k` prevents neither the
sends nor the records of `k+1..N` (each iteration's `try/except` absorbs
the raised error, which never crosses the loop boundary) — and every
failing destination gets a failure record carrying the error text plus,
when error notification is enabled, a notification to every admin.  For
the album path the same holds (given the batch yields a non-empty media
list, without which no send is ever attempted), with one failure record
per original message of the batch. -/
theorem dispatch_failure_isolation (cfg : BotConfig)
    (copyRes : Int → Except String Nat)
    (albumRes : Int → List InputMedia → Except String (List Nat))
    (m m0 : Msg) (rest : List Msg) :
    (((forward_single_message cfg copyRes m).sends).map SendEvent.target
        = cfg.target_channels
      ∧ ((forward_single_message cfg copyRes m).records).map
          (fun r => r.target_chat_id) = cfg.target_channels
      ∧ ∀ t ∈ cfg.target_channels, ∀ e, copyRes t = Except.error e →
          (∃ r ∈ (forward_single_message cfg copyRes m).records,
            r.target_chat_id = t ∧ r.success = false
              ∧ r.error_message = some e)
          ∧ (cfg.notify_admin_on_error = true → ∀ a ∈ cfg.admins,
              (a, t, e) ∈ (forward_single_message cfg copyRes m).notifications))
    ∧ ((album_media cfg m0 rest).isEmpty = false →
        ((forward_media_group cfg albumRes m0 rest).sends).map
            SendEvent.target = cfg.target_channels
        ∧ ∀ t ∈ cfg.target_channels, ∀ e,
            albumRes t (album_media cfg m0 rest) = Except.error e →
            (∀ msg ∈ m0 :: rest,
              ∃ r ∈ (forward_media_group cfg albumRes m0 rest).records,
                r.target_chat_id = t
                  ∧ r.original_message_id = msg.message_id
                  ∧ r.success = false ∧ r.error_message = some e)
            ∧ (cfg.notify_admin_on_error = true → ∀ a ∈ cfg.admins,
                (a, t, e) ∈ (forward_media_group cfg albumRes m0
                  rest).notifications)) := by
  refine ⟨⟨?_, ?_, ?_⟩, ?_⟩
  · simpa [DispatchOut.empty] using
      single_fold_sends cfg copyRes m cfg.target_channels DispatchOut.empty
  · simpa [DispatchOut.empty] using
      single_fold_rec_targets cfg copyRes m cfg.target_channels
        DispatchOut.empty
  · intro t ht e hres
    exact ⟨single_fold_fail_mem cfg copyRes m cfg.target_channels
        DispatchOut.empty t e ht hres,
      fun hen a ha => single_fold_notify_mem cfg copyRes m
        cfg.target_channels DispatchOut.empty t e ht hres hen a ha⟩
  · intro hne
    constructor
    · have := media_fold_sends cfg albumRes m0 rest hne cfg.target_channels
        DispatchOut.empty
      simpa [forward_media_group, DispatchOut.empty] using this
    · intro t ht e hres
      constructor
      · intro msg hmsg
        have := media_fold_fail_mem cfg albumRes m0 rest hne
          cfg.target_channels DispatchOut.empty t e msg ht hres hmsg
        simpa [forward_media_group] using this
      · intro hen a ha
        have := media_fold_notify_mem cfg albumRes m0 rest hne
          cfg.target_channels DispatchOut.empty t e ht hres hen a ha
        simpa [forward_media_group] using this

/-- Witness for C4: two destinations, the first failing with "boom" —
both paths still send to both destinations, the failing destination 100
gets a failure record carrying "boom", and admin 9 is notified. -/
theorem dispatch_failure_isolation_witness :
    ((forward_single_message cfg2 copyFail100 (photoMsg 1 none)).sends).map
        SendEvent.target = cfg2.target_channels
    ∧ (∃ r ∈ (forward_single_message cfg2 copyFail100 (photoMsg 1 none)).records,
        r.target_chat_id = 100 ∧ r.success = false
          ∧ r.error_message = some "boom")
    ∧ (9, 100, "boom")
        ∈ (forward_single_message cfg2 copyFail100 (photoMsg 1 none)).notifications
    ∧ (album_media cfg2 (photoMsg 1 (some "g"))
        [videoMsg 2 (some "g")]).isEmpty = false
    ∧ ((forward_media_group cfg2 albumFail100 (photoMsg 1 (some "g"))
        [videoMsg 2 (some "g")]).sends).map SendEvent.target
      = cfg2.target_channels := by
  have h := dispatch_failure_isolation cfg2 copyFail100 albumFail100
    (photoMsg 1 none) (photoMsg 1 (some "g")) [videoMsg 2 (some "g")]
  refine ⟨h.1.1, ?_, ?_, by decide, (h.2 (by decide)).1⟩
  · exact (h.1.2.2 100 (by decide) "boom" rfl).1
  · exact (h.1.2.2 100 (by decide) "boom" rfl).2 (by decide) 9
      (by decide)

/-!
## C6 — where filtering happens
-/

theorem handle_message_filterEvals (cfg : BotConfig) (st : BotState)
    (m : Msg) :
    (handle_message cfg st m).filterEvals
      = st.filterEvals
        + (if m.chat_id ∈ cfg.source_channels then 1 else 0) := by
  unfold handle_message
  by_cases hs : m.chat_id ∈ cfg.source_channels
  · by_cases hf : should_filter_message cfg m (get_message_type m) = true
    · simp [hs, hf]
    · rcases hadd : add_message st.agg m with ⟨agg, ob⟩
      cases ob <;> simp [hs, hf, hadd]
  · simp [hs]

theorem run_filterEvals (cfg : BotConfig) :
    ∀ (msgs : List Msg) (st : BotState),
      (msgs.foldl (handle_message cfg) st).filterEvals
        = st.filterEvals
          + (msgs.filter
              (fun m => decide (m.chat_id ∈ cfg.source_channels))).length := by
  intro msgs
  induction msgs with
  | nil => intro st; simp
  | cons m ms ih =>
    intro st
    rw [List.foldl_cons, ih, handle_message_filterEvals]
    by_cases hs : m.chat_id ∈ cfg.source_channels
    · rw [List.filter_cons]
      simp only [hs, if_true, decide_True, List.length_cons]
      omega
    · rw [List.filter_cons]
      simp [hs]

theorem handle_message_excl (cfg : BotConfig) (m : Msg)
    (hmf : should_filter_message cfg m (get_message_type m) = true)
    (st : BotState) (m' : Msg) (hex : ExcludedFrom m st) :
    ExcludedFrom m (handle_message cfg st m') := by
  obtain ⟨hdis, hbuf⟩ := hex
  by_cases hs : m'.chat_id ∈ cfg.source_channels
  · by_cases hf : should_filter_message cfg m' (get_message_type m') = true
    · have hres : handle_message cfg st m'
          = { st with
              messages_received := st.messages_received + 1
              filterEvals := st.filterEvals + 1 } := by
        simp [handle_message, hs, hf]
      rw [hres]
      exact ⟨hdis, hbuf⟩
    · have hne : m ≠ m' := by
        intro he
        rw [← he] at hf
        exact hf hmf
      by_cases hg : truthyOptStr m'.media_group_id = true
      · have hres : handle_message cfg st m'
            = { st with
                agg :=
                  { media_groups :=
                      alInsert st.agg.media_groups
                        (m'.media_group_id.getD "")
                        ((alLookup st.agg.media_groups
                          (m'.media_group_id.getD "")).getD [] ++ [m'])
                    group_timers :=
                      alInsert st.agg.group_timers
                        (m'.media_group_id.getD "") st.agg.nextTimer
                    nextTimer := st.agg.nextTimer + 1 }
                messages_received := st.messages_received + 1
                filterEvals := st.filterEvals + 1 } := by
          simp [handle_message, hs, hf, add_message, hg]
        rw [hres]
        refine ⟨hdis, ?_⟩
        intro g buf hlook hmem
        by_cases heq : g = m'.media_group_id.getD ""
        · subst heq
          rw [alLookup_alInsert_self] at hlook
          cases hlook
          rcases List.mem_append.1 hmem with h | h
          · cases hold : alLookup st.agg.media_groups
              (m'.media_group_id.getD "") with
            | none => rw [hold] at h; simp at h
            | some buf0 =>
              rw [hold] at h
              exact hbuf _ buf0 hold h
          · simp only [List.mem_singleton] at h
            exact hne h
        · rw [alLookup_alInsert_ne _ _ _ _
            (by simpa [beq_eq_false_iff_ne] using heq)] at hlook
          exact hbuf g buf hlook hmem
      · have hadd : add_message st.agg m' = (st.agg, some [m']) := by
          unfold add_message
          simp only [Bool.not_eq_true] at hg
          simp [hg]
        have hres : handle_message cfg st m'
            = { st with
                messages_received := st.messages_received + 1
                filterEvals := st.filterEvals + 1
                dispatches := st.dispatches ++ [[m']] } := by
          simp [handle_message, hs, hf, hadd]
        rw [hres]
        refine ⟨?_, hbuf⟩
        intro b hb
        rcases List.mem_append.1 hb with h | h
        · exact hdis b h
        · simp only [List.mem_singleton] at h
          subst h
          simp only [List.mem_singleton]
          exact hne
  · have hres : handle_message cfg st m' = st := by
      simp [handle_message, hs]
    rw [hres]
    exact ⟨hdis, hbuf⟩

theorem run_excl (cfg : BotConfig) (m : Msg)
    (hmf : should_filter_message cfg m (get_message_type m) = true) :
    ∀ (msgs : List Msg) (st : BotState), ExcludedFrom m st →
      ExcludedFrom m (msgs.foldl (handle_message cfg) st) := by
  intro msgs
  induction msgs with
  | nil => intro st h; exact h
  | cons m' ms ih =>
    intro st h
    rw [List.foldl_cons]
    exact ih _ (handle_message_excl cfg m hmf st m' h)

/-- C6, amended: the source evaluates the filter once per arriving
source-channel message (not once per batch), classifying that message
itself; and a message the filter suppresses is dropped before
aggregation, so it reaches no dispatched batch and no group buffer —
zero provider sends and zero DeliveryRecords for it. -/
theorem handle_filter_per_message (cfg : BotConfig) (msgs : List Msg) :
    (run_handle cfg msgs).filterEvals
      = (msgs.filter
          (fun m => decide (m.chat_id ∈ cfg.source_channels))).length
    ∧ ∀ m : Msg,
        should_filter_message cfg m (get_message_type m) = true →
        ExcludedFrom m (run_handle cfg msgs) := by
  constructor
  · have := run_filterEvals cfg msgs BotState.init
    simpa [run_handle, BotState.init] using this
  · intro m hmf
    refine run_excl cfg m hmf msgs BotState.init ⟨?_, ?_⟩
    · intro b hb
      simp [BotState.init] at hb
    · intro g buf hlook
      simp [BotState.init, AggState.empty, alLookup] at hlook

/-- Witness for the amended C6: with "video" blocked, a photo+video
group from a source channel triggers two filter evaluations and the
suppressed video reaches neither a dispatch nor a buffer. -/
theorem handle_filter_per_message_witness :
    should_filter_message cfgC6 (videoMsg 2 (some "g"))
        (get_message_type (videoMsg 2 (some "g"))) = true
    ∧ (run_handle cfgC6 msgsC6).filterEvals
        = (msgsC6.filter
            (fun m => decide (m.chat_id ∈ cfgC6.source_channels))).length
    ∧ ExcludedFrom (videoMsg 2 (some "g")) (run_handle cfgC6 msgsC6) := by
  have h := handle_filter_per_message cfgC6 msgsC6
  exact ⟨by decide, h.1, h.2 (videoMsg 2 (some "g")) (by decide)⟩

/-- Counterexample to C6 as stated: in a two-message media group whose
representative (first) message is an unsuppressed photo, the source
still evaluates the filter twice — once per message, not once per batch
— and drops the blocked video member on arrival, so the buffered group
contains only the photo even though the batch, classified by its
representative, would not be suppressed. -/
theorem handle_filter_per_message_cex :
    should_filter_message cfgC6 (photoMsg 1 (some "g"))
        (get_message_type (photoMsg 1 (some "g"))) = false
    ∧ (run_handle cfgC6 msgsC6).filterEvals = 2
    ∧ alLookup (run_handle cfgC6 msgsC6).agg.media_groups "g"
        = some [photoMsg 1 (some "g")] := by
  refine ⟨by decide, by decide, by decide⟩

/-!
## C5 — timer reset vs. in-flight emission
-/

/-- C5 fails on the code: under the schedule `c5trace` the group is
emitted twice in one lifecycle — first as `[m1]`, then (because the
cancelled task 0 never ran its cleanup, so the buffer survived) as
`[m1, m2]` — so message m1 is handed to the forward callback twice. -/
theorem timer_race_double_emission :
    (runAgg c5trace).emissions = [[m1g], [m1g, m2g]]
    ∧ ((runAgg c5trace).emissions.filter (fun b => m1g ∈ b)).length = 2 := by
  refine ⟨by decide, by decide⟩

/-!
## C8 — rate limiter
-/

theorem runAcquires_window_bound :
    ∀ (ts : List Nat) (rl : RateLimiter) (A : List Nat) (prev : Nat),
      List.Chain (· ≤ ·) prev ts →
      rl.requests = A.filter (fun a => decide (prev < a + 60)) →
      (∀ a ∈ A, a ≤ prev) →
      (∀ w, countWindow A w ≤ rl.max_per_minute) →
      ∀ w, countWindow (A ++ (runAcquires rl ts).2) w
        ≤ rl.max_per_minute := by
  intro ts
  induction ts with
  | nil =>
    intro rl A prev _ _ _ hW w
    simpa [runAcquires] using hW w
  | cons t ts ih =>
    intro rl A prev hch hreq hA hW w
    rw [List.chain_cons] at hch
    obtain ⟨hpt, hch2⟩ := hch
    have hpr : pruneReqs rl.requests t
        = A.filter (fun a => decide (t < a + 60)) := by
      rw [hreq]
      unfold pruneReqs
      rw [List.filter_filter]
      apply List.filter_congr
      intro a _
      cases hta : decide (t < a + 60) with
      | false => simp
      | true =>
        have h1 : t < a + 60 := of_decide_eq_true hta
        have h2 : prev < a + 60 := Nat.lt_of_le_of_lt hpt h1
        simp [h1, h2]
    by_cases hfull : rl.max_per_minute ≤ (pruneReqs rl.requests t).length
    · have hacq : acquire rl t
          = (false, { rl with requests := pruneReqs rl.requests t }) := by
        simp [acquire, hfull]
      have hrun : (runAcquires rl (t :: ts)).2
          = (runAcquires { rl with requests := pruneReqs rl.requests t }
              ts).2 := by
        simp [runAcquires, hacq]
      rw [hrun]
      exact ih { rl with requests := pruneReqs rl.requests t } A t hch2
        hpr (fun a ha => Nat.le_trans (hA a ha) hpt) hW w
    · have hacq : acquire rl t
          = (true,
             { rl with requests := pruneReqs rl.requests t ++ [t] }) := by
        simp [acquire, hfull]
      have hrun : (runAcquires rl (t :: ts)).2
          = t :: (runAcquires
              { rl with requests := pruneReqs rl.requests t ++ [t] }
              ts).2 := by
        simp [runAcquires, hacq]
      rw [hrun, List.append_cons]
      have hlt : (pruneReqs rl.requests t).length < rl.max_per_minute :=
        Nat.lt_of_not_le hfull
      have hreq2 :
          ({ rl with requests := pruneReqs rl.requests t ++ [t]
             : RateLimiter }).requests
          = (A ++ [t]).filter (fun a => decide (t < a + 60)) := by
        have htt : decide (t < t + 60) = true := by simp
        simp [hpr, List.filter_append, htt]
      have hA2 : ∀ a ∈ A ++ [t], a ≤ t := by
        intro a ha
        rcases List.mem_append.1 ha with h | h
        · exact Nat.le_trans (hA a h) hpt
        · simp only [List.mem_singleton] at h
          exact Nat.le_of_eq h
      have hW2 : ∀ w2, countWindow (A ++ [t]) w2 ≤ rl.max_per_minute := by
        intro w2
        unfold countWindow
        rw [List.filter_append]
        by_cases hw : w2 ≤ t ∧ t < w2 + 60
        · have hone : [t].filter
              (fun a => decide (w2 ≤ a) && decide (a < w2 + 60)) = [t] := by
            simp [hw.1, hw.2]
          have hsub : (A.filter
                (fun a => decide (w2 ≤ a) && decide (a < w2 + 60))).Sublist
              (A.filter (fun a => decide (t < a + 60))) := by
            apply List.monotone_filter_right
            intro a hpa
            rw [Bool.and_eq_true] at hpa
            have h1 : w2 ≤ a := of_decide_eq_true hpa.1
            have h3 : t < a + 60 :=
              Nat.lt_of_lt_of_le hw.2 (Nat.add_le_add_right h1 60)
            simp [h3]
          have hlen := hsub.length_le
          rw [hpr] at hlt
          rw [hone]
          simp only [List.length_append, List.length_singleton]
          omega
        · have hzero : [t].filter
              (fun a => decide (w2 ≤ a) && decide (a < w2 + 60)) = [] := by
            rcases Decidable.not_and_iff_or_not.1 hw with h | h
            · simp [h]
            · simp [h]
          rw [hzero]
          simpa [countWindow] using hW w2
      exact ih { rl with requests := pruneReqs rl.requests t ++ [t] }
        (A ++ [t]) t hch2 hreq2 hA2 hW2 w

/-- C8, amended: `acquire` does enforce the cap over a rolling 60-second
sliding window of timestamps (prune-by-age, not a fixed bucket reset):
along any time-monotone call sequence, the sends it admits and records
never exceed `max_per_minute` within any 60-second window.
`wait_if_needed`, however, merely sleeps until the oldest recorded
timestamp leaves the window and then returns without re-acquiring or
recording, so a send made after such a wait is not counted and the
per-window bound on actual sends can be exceeded (see the
counterexample). -/
theorem rate_limiter_admitted_window_bound (maxn : Nat) (ts : List Nat)
    (h : List.Chain (· ≤ ·) 0 ts) :
    ∀ w, countWindow (runAcquires ⟨maxn, []⟩ ts).2 w ≤ maxn := by
  intro w
  have := runAcquires_window_bound ts ⟨maxn, []⟩ [] 0 h rfl
    (by simp) (fun w2 => by simp [countWindow]) w
  simpa using this

/-- Witness for the amended C8: calls at 0, 30 and 61 with cap 1 — the
admitted sends in the window starting at 31 stay within the cap. -/
theorem rate_limiter_admitted_window_bound_witness :
    List.Chain (· ≤ ·) 0 [0, 30, 61]
    ∧ countWindow (runAcquires ⟨1, []⟩ [0, 30, 61]).2 31 ≤ 1 := by
  have hch : List.Chain (· ≤ ·) 0 [0, 30, 61] :=
    List.Chain.cons (by decide) (List.Chain.cons (by decide)
      (List.Chain.cons (by decide) List.Chain.nil))
  exact ⟨hch, rate_limiter_admitted_window_bound 1 [0, 30, 61] hch 31⟩

/-- Counterexample to C8 as stated: cap 1, callers invoking
`wait_if_needed` before each send at times 0, 30 and 61.  The caller at
30 is refused, sleeps until 60 and then sends without being recorded;
the caller at 61 is admitted because the window only contains the
timestamp 0.  The resulting send times are [0, 60, 61]: the 60-second
window starting at 31 contains 2 sends — more than `max_per_minute`. -/
theorem rate_limiter_window_cex :
    (runProtocol ⟨1, []⟩ [0, 30, 61]).map (fun p => countWindow p.2 31)
      = some 2
    ∧ 1 < 2 := by
  refine ⟨by decide, by decide⟩
